import Mathlib

/-!
Shallow embedding of the acceleration-detection service
(`ml-service/app/detector.py`, `ml-service/app/main.py`, `ml-service/app/models.py`).

Modelling conventions:
* Timestamps are modelled as integers; the engine only ever compares them.
* Python floats are modelled as rationals, except where the input may carry
  IEEE non-finite markers (`NaN`, `inf`, `-inf`); those inputs are modelled by
  the `PyFloat` type below.  A missing value (`None`) becomes `NaN` in a
  pandas float column, so it is modelled by the `nan` constructor as well.
* `np.std` takes a real square root, so the confidence computation of
  `_classify_trend` is modelled in `ℝ`; every other stage is computable
  over `ℚ`.
* `ValueError`s raised by `calculate_acceleration` are modelled with
  `Except DetectorError`; the two distinct messages of the source are the two
  constructors of `DetectorError`.
-/

/-- A Python float input value: either a finite value (modelled as a rational)
or one of the IEEE non-finite markers.  `None` entries of the input become
`NaN` in the pandas float column, hence are modelled by `nan`. -/
inductive PyFloat where
  | finite (q : ℚ)
  | nan
  | inf
  | neginf
deriving DecidableEq, Repr

/-- True exactly for the pandas missing-value marker `NaN` (which is what
`DataFrame.dropna` tests for). -/
def PyFloat.isNaN : PyFloat → Bool
  | .nan => true
  | _ => false

/-- True exactly for finite values (neither `NaN` nor an infinity). -/
def PyFloat.isFinite : PyFloat → Bool
  | .finite _ => true
  | _ => false

/-- Conversion into the rational model.  The non-finite markers have no
rational counterpart and are mapped to a junk value 0; every theorem below
only drives the numeric pipeline with inputs whose surviving values are
finite, so the junk value is never observable there. -/
def PyFloat.toRat : PyFloat → ℚ
  | .finite q => q
  | _ => 0

/-- The two `ValueError`s of `AccelerationDetector.calculate_acceleration`:
`"Need at least {min} data points, got {n}"` and
`"Timestamps and throughput values must have same length"`. -/
inductive DetectorError where
  | insufficientData (required got : ℕ)
  | lengthMismatch
deriving DecidableEq, Repr

/-- Default `min_data_points` of `AccelerationDetector.__init__`. -/
def minDataPoints : ℕ := 7

/-- Response record of `models.AccelerationResponse`.  The confidence is a
real number because `np.std` takes a real square root. -/
structure AccelerationResponse where
  current_velocity : ℚ
  current_acceleration : ℚ
  trend : String
  confidence : ℝ
  velocity_history : List ℚ
  acceleration_history : List ℚ

/-- Embedding of `df.sort_values('timestamp')`: sort the (timestamp, value)
pairs ascending by timestamp.  pandas delegates to numpy's default
(unstable) quicksort; it is modelled here by a stable insertion sort, and no
theorem below relies on the order of equal timestamps (every concrete input
used has strictly increasing timestamps, where all ascending sorts agree). -/
def sortByTimestamp (pairs : List (ℤ × PyFloat)) : List (ℤ × PyFloat) :=
  List.insertionSort (fun p q => p.1 ≤ q.1) pairs

/-- Embedding of `df.dropna()`: drop every row whose value is `NaN`.
With pandas defaults, infinities are NOT dropped (`use_inf_as_na` is off). -/
def dropNaN (pairs : List (ℤ × PyFloat)) : List (ℤ × PyFloat) :=
  pairs.filter (fun p => !p.2.isNaN)

/-- Input normalization of `calculate_acceleration` lines 53-60: pair the two
sequences by position, sort by timestamp, drop `NaN` rows. -/
def normalizePairs (ts : List ℤ) (vs : List PyFloat) : List (ℤ × PyFloat) :=
  dropNaN (sortByTimestamp (ts.zip vs))

/-- The value column handed to the smoothing stage. -/
def normalizedValues (ts : List ℤ) (vs : List PyFloat) : List ℚ :=
  (normalizePairs ts vs).map (fun p => p.2.toRat)

/-- Loop body of `_apply_exponential_smoothing`: given the previous smoothed
value, each step emits `alpha * v + (1 - alpha) * prev`. -/
def smoothFrom (alpha prev : ℚ) : List ℚ → List ℚ
  | [] => []
  | v :: rest => (alpha * v + (1 - alpha) * prev) :: smoothFrom alpha (alpha * v + (1 - alpha) * prev) rest

/-- Embedding of `_apply_exponential_smoothing`: empty input gives an empty
array; otherwise the output is seeded with the first raw value and follows
the recurrence `smoothed[i] = alpha * values[i] + (1 - alpha) * smoothed[i-1]`. -/
def applyExponentialSmoothing (values : List ℚ) (alpha : ℚ) : List ℚ :=
  match values with
  | [] => []
  | v :: rest => v :: smoothFrom alpha v rest

/-- Embedding of `np.gradient` (unit spacing, default `edge_order=1`), which
computes `out[0] = x[1]-x[0]`, `out[1:-1] = (x[2:] - x[:-2]) / 2`,
`out[-1] = x[-1]-x[-2]`.  `np.gradient` raises for fewer than 2 points; the
pipeline only calls it with at least 3 points, so the under-2 case is
modelled as zeros (unreachable). -/
def npGradient (x : List ℚ) : List ℚ :=
  if x.length < 2 then List.replicate x.length 0
  else (x.getD 1 0 - x.getD 0 0) ::
       (List.zipWith (fun p q => (q - p) / 2) x (x.drop 2) ++
        [x.getD (x.length - 1) 0 - x.getD (x.length - 2) 0])

/-- Embedding of `_calculate_acceleration`: fewer than 3 points yield that
many zeros, otherwise the second numerical derivative
`np.gradient(np.gradient(velocity))`. -/
def calcAcceleration (velocity : List ℚ) : List ℚ :=
  if velocity.length < 3 then List.replicate velocity.length 0
  else npGradient (npGradient velocity)

/-- The trailing-window length of `_classify_trend`:
`recent_window = min(7, len(acceleration_history) // 2)`. -/
def recentWindow (n : ℕ) : ℕ := min 7 (n / 2)

/-- The trailing window `acceleration_history[-recent_window:]`.  The Python
slice `a[-w:]` is the last `w` elements for `w ≥ 1`; the classifier only
takes it with `len ≥ 3`, hence `w ≥ 1`. -/
def recentAccel (a : List ℚ) : List ℚ :=
  a.drop (a.length - recentWindow a.length)

/-- Embedding of `np.mean` (only applied to nonempty lists). -/
def meanQ (l : List ℚ) : ℚ := l.sum / l.length

/-- The population variance underlying `np.std` (`np.std` is its square
root; `ddof = 0`). -/
def varQ (l : List ℚ) : ℚ := ((l.map (fun x => (x - meanQ l) ^ 2)).sum) / l.length

/-- Embedding of `np.std`: the real square root of the population variance. -/
noncomputable def npStd (l : List ℚ) : ℝ := Real.sqrt ((varQ l : ℚ) : ℝ)

/-- Trend label of `_classify_trend`: `threshold = 0.1`; mean recent
acceleration above it is "improving", below its negation "declining",
otherwise "stable"; fewer than 3 points default to "stable". -/
def classifyTrendLabel (a : List ℚ) : String :=
  if a.length < 3 then "stable"
  else if 1 / 10 < meanQ (recentAccel a) then "improving"
  else if meanQ (recentAccel a) < -(1 / 10) then "declining"
  else "stable"

open Classical in
/-- Confidence of `_classify_trend` before the final rounding: 1.0 when
`std_accel == 0`, else `min(1, (|mean| / (std + 1e-6)) / 2)`; then the boost
`min(1, confidence * 1.2)` when `|mean| > 0.2` (which is `threshold * 2`). -/
noncomputable def rawConfidence (a : List ℚ) : ℝ :=
  let m : ℚ := meanQ (recentAccel a)
  let s : ℝ := npStd (recentAccel a)
  let base : ℝ := if s = 0 then 1 else min 1 (|(m : ℝ)| / (s + 1 / 1000000) / 2)
  if 1 / 5 < |m| then min 1 (base * (12 / 10)) else base

open Classical in
/-- Embedding of Python `round` at a given decimal position, i.e. round half
to even, applied to `x * 1000` for 3 decimal places. -/
noncomputable def roundHalfEven (x : ℝ) : ℤ :=
  if x - ⌊x⌋ < 1 / 2 then ⌊x⌋
  else if (1 / 2 : ℝ) < x - ⌊x⌋ then ⌊x⌋ + 1
  else if Even ⌊x⌋ then ⌊x⌋ else ⌊x⌋ + 1

/-- Embedding of `round(x, 3)`. -/
noncomputable def round3R (x : ℝ) : ℝ := (roundHalfEven (x * 1000) : ℝ) / 1000

/-- Confidence returned by `_classify_trend`: the fixed default 0.5 for
fewer than 3 points (returned without rounding), otherwise the rounded
confidence `round(confidence, 3)`. -/
noncomputable def classifyConfidence (a : List ℚ) : ℝ :=
  if a.length < 3 then 1 / 2 else round3R (rawConfidence a)

/-- The confidence value before the final rounding (0.5 in the short-series
branch, which the source returns as is). -/
noncomputable def unroundedConfidence (a : List ℚ) : ℝ :=
  if a.length < 3 then 1 / 2 else rawConfidence a

/-- Embedding of `AccelerationDetector.calculate_acceleration` with the
default configuration (`min_data_points = 7`): validate, normalize, smooth,
differentiate twice, classify.  The two locals `velocity_history` and
`acceleration_history` of the source appear inline. -/
noncomputable def calculate_acceleration (ts : List ℤ) (vs : List PyFloat) (alpha : ℚ) :
    Except DetectorError AccelerationResponse :=
  if ts.length < minDataPoints then
    .error (.insufficientData minDataPoints ts.length)
  else if ts.length ≠ vs.length then
    .error .lengthMismatch
  else
    .ok ⟨(applyExponentialSmoothing (normalizedValues ts vs) alpha).getLastD 0,
         (calcAcceleration (applyExponentialSmoothing (normalizedValues ts vs) alpha)).getLastD 0,
         classifyTrendLabel (calcAcceleration (applyExponentialSmoothing (normalizedValues ts vs) alpha)),
         classifyConfidence (calcAcceleration (applyExponentialSmoothing (normalizedValues ts vs) alpha)),
         applyExponentialSmoothing (normalizedValues ts vs) alpha,
         calcAcceleration (applyExponentialSmoothing (normalizedValues ts vs) alpha)⟩

/-- The smoothing factor field of `models.AccelerationRequest` as it can
arrive on the wire: absent, JSON `null`, or an explicit number. -/
inductive AlphaField where
  | absent
  | null
  | value (q : ℚ)
deriving DecidableEq, Repr

/-- Pydantic parsing of `smoothing_alpha: Optional[float] = Field(0.3, ...)`:
an absent field takes the declared default 0.3, `null` parses to `None`,
and a number parses to itself. -/
def parsedAlpha : AlphaField → Option ℚ
  | .absent => some (3 / 10)
  | .null => none
  | .value q => some q

/-- The value the `/calculate-acceleration` handler passes to the engine:
`smoothing_alpha=request.smoothing_alpha or 0.3`.  Python `or` substitutes
0.3 for every falsy value, i.e. for `None` and for `0.0`. -/
def engineAlpha (f : AlphaField) : ℚ :=
  match parsedAlpha f with
  | none => 3 / 10
  | some q => if q = 0 then 3 / 10 else q

/-- The differencing scheme exactly as the spec states it (spec-side
reference definition for the derivative stage): `d[0] = x[1]-x[0]`,
`d[i] = (x[i+1]-x[i-1])/2` for interior `i`, `d[N-1] = x[N-1]-x[N-2]`. -/
def diffSchemeSpec (x : List ℚ) : List ℚ :=
  List.ofFn (fun i : Fin x.length =>
    if i.val = 0 then x.getD 1 0 - x.getD 0 0
    else if i.val = x.length - 1 then x.getD (x.length - 1) 0 - x.getD (x.length - 2) 0
    else (x.getD (i.val + 1) 0 - x.getD (i.val - 1) 0) / 2)

/-! Concrete inputs used by the scenario claims. -/

/-- Seven consecutive daily instants (2024-01-01 onward, as day numbers). -/
def c3ts : List ℤ := [0, 1, 2, 3, 4, 5, 6]

/-- The constant series `[1, 1, 1, 1, 1, 1, 1]`. -/
def c3vs : List PyFloat := List.replicate 7 (PyFloat.finite 1)

/-- Seven consecutive daily instants with one non-finite value in the series. -/
def c6ts : List ℤ := [0, 1, 2, 3, 4, 5, 6]

/-- A series containing a positive infinity among finite values. -/
def c6vs : List PyFloat :=
  [.finite 1, .finite 1, .finite 1, .inf, .finite 1, .finite 1, .finite 1]

/-- Twenty consecutive daily instants. -/
def upTs : List ℤ := [0, 1, 2, 3, 4, 5, 6, 7, 8, 9, 10, 11, 12, 13, 14, 15, 16, 17, 18, 19]

/-- The strictly increasing series `1, 2, ..., 20`. -/
def upVs : List PyFloat :=
  [.finite 1, .finite 2, .finite 3, .finite 4, .finite 5, .finite 6, .finite 7,
   .finite 8, .finite 9, .finite 10, .finite 11, .finite 12, .finite 13, .finite 14,
   .finite 15, .finite 16, .finite 17, .finite 18, .finite 19, .finite 20]

/-- The strictly decreasing series `20, 19, ..., 1`. -/
def dnVs : List PyFloat :=
  [.finite 20, .finite 19, .finite 18, .finite 17, .finite 16, .finite 15, .finite 14,
   .finite 13, .finite 12, .finite 11, .finite 10, .finite 9, .finite 8, .finite 7,
   .finite 6, .finite 5, .finite 4, .finite 3, .finite 2, .finite 1]

/-- Seven consecutive daily instants for the all-missing scenario. -/
def c10ts : List ℤ := [0, 1, 2, 3, 4, 5, 6]

/-- A series of seven missing (`NaN`) values. -/
def c10vs : List PyFloat := List.replicate 7 PyFloat.nan

/-! Properties of the smoothing stage. -/

lemma smoothFrom_length (alpha prev : ℚ) (l : List ℚ) :
    (smoothFrom alpha prev l).length = l.length := by
  induction l generalizing prev with
  | nil => rfl
  | cons v rest ih => simp [smoothFrom, ih]

lemma smoothFrom_getD (alpha : ℚ) (l : List ℚ) :
    ∀ (prev : ℚ) (j : ℕ), j < l.length →
      (smoothFrom alpha prev l).getD j 0 =
        alpha * l.getD j 0 + (1 - alpha) * ((prev :: smoothFrom alpha prev l).getD j 0) := by
  induction l with
  | nil => intro prev j h; simp at h
  | cons v rest ih =>
    intro prev j h
    cases j with
    | zero => simp [smoothFrom]
    | succ j =>
      have hj : j < rest.length := by simpa using h
      simpa [smoothFrom] using ih (alpha * v + (1 - alpha) * prev) j hj

/-- C1: the smoothing stage matches its reference definition: the output has
the input's length, `output[0] = input[0]`, the recurrence
`output[i] = alpha * input[i] + (1 - alpha) * output[i-1]` holds for every
`1 ≤ i < N`, and an empty input yields the empty sequence. -/
theorem c1_smoothing (values : List ℚ) (alpha : ℚ) :
    (applyExponentialSmoothing values alpha).length = values.length ∧
    (values = [] → applyExponentialSmoothing values alpha = []) ∧
    (0 < values.length →
      (applyExponentialSmoothing values alpha).getD 0 0 = values.getD 0 0) ∧
    (∀ i : ℕ, 0 < i → i < values.length →
      (applyExponentialSmoothing values alpha).getD i 0 =
        alpha * values.getD i 0 +
          (1 - alpha) * (applyExponentialSmoothing values alpha).getD (i - 1) 0) := by
  cases values with
  | nil => simp [applyExponentialSmoothing]
  | cons v rest =>
    refine ⟨by simp [applyExponentialSmoothing, smoothFrom_length], by simp,
      by simp [applyExponentialSmoothing], ?_⟩
    intro i hi hilen
    obtain ⟨j, rfl⟩ : ∃ j, i = j + 1 := ⟨i - 1, by omega⟩
    have hj : j < rest.length := by simpa using hilen
    show (v :: smoothFrom alpha v rest).getD (j + 1) 0 = _
    simp only [applyExponentialSmoothing, List.getD_cons_succ, Nat.add_sub_cancel]
    exact smoothFrom_getD alpha rest v j hj

/-- Witness for C1 at the concrete input `[2, 4]` with `alpha = 1/2`. -/
theorem c1_smoothing_witness :
    (applyExponentialSmoothing [2, 4] (1 / 2)).getD 1 0 =
      (1 / 2) * ([2, 4] : List ℚ).getD 1 0 +
        (1 - 1 / 2) * (applyExponentialSmoothing [2, 4] (1 / 2)).getD (1 - 1) 0 :=
  (c1_smoothing [2, 4] (1 / 2)).2.2.2 1 (by decide) (by decide)

/-! Properties of the derivative stage. -/

lemma diffSchemeSpec_length (x : List ℚ) : (diffSchemeSpec x).length = x.length := by
  simp [diffSchemeSpec]

lemma npGradient_length (x : List ℚ) : (npGradient x).length = x.length := by
  rw [npGradient]
  split_ifs with h
  · simp
  · simp [List.length_zipWith]
    omega

lemma npGradient_eq_diffSchemeSpec (x : List ℚ) (hx : 2 ≤ x.length) :
    npGradient x = diffSchemeSpec x := by
  apply List.ext_getElem (by rw [npGradient_length, diffSchemeSpec_length])
  intro n h1 h2
  rw [diffSchemeSpec_length] at h2
  have hzip : (List.zipWith (fun p q => (q - p) / 2) x (x.drop 2)).length = x.length - 2 := by
    simp [List.length_zipWith]
  simp only [diffSchemeSpec, List.getElem_ofFn, npGradient,
    if_neg (show ¬ x.length < 2 by omega)]
  cases n with
  | zero => simp
  | succ m =>
    by_cases hm : m + 1 = x.length - 1
    · have hml : m = x.length - 2 := by omega
      simp only [List.getElem_cons_succ, if_neg (Nat.succ_ne_zero m), if_pos hm]
      rw [List.getElem_append]
      rw [dif_neg (by omega : ¬ m < (List.zipWith (fun p q => (q - p) / 2) x (x.drop 2)).length)]
      simp [hzip, hml]
    · have hmi : m < x.length - 2 := by omega
      simp only [List.getElem_cons_succ, if_neg (Nat.succ_ne_zero m), if_neg hm]
      rw [List.getElem_append]
      rw [dif_pos (by omega : m < (List.zipWith (fun p q => (q - p) / 2) x (x.drop 2)).length)]
      rw [List.getElem_zipWith]
      rw [List.getElem_drop]
      rw [List.getD_eq_getElem x 0 (by omega : m + 1 + 1 < x.length),
          List.getD_eq_getElem x 0 (by omega : m + 1 - 1 < x.length)]
      simp only [show 2 + m = m + 1 + 1 from by omega, show m + 1 - 1 = m from by omega]

/-- C2: the derivative stage preserves length, returns all zeros for fewer
than 3 points, and for at least 3 points equals two successive applications
of the spec's differencing scheme. -/
theorem c2_acceleration (x : List ℚ) :
    (calcAcceleration x).length = x.length ∧
    (x.length < 3 → calcAcceleration x = List.replicate x.length 0) ∧
    (3 ≤ x.length → calcAcceleration x = diffSchemeSpec (diffSchemeSpec x)) := by
  refine ⟨?_, ?_, ?_⟩
  · rw [calcAcceleration]
    split_ifs with h
    · simp
    · rw [npGradient_length, npGradient_length]
  · intro h
    rw [calcAcceleration, if_pos h]
  · intro h
    rw [calcAcceleration, if_neg (by omega)]
    rw [npGradient_eq_diffSchemeSpec x (by omega),
        npGradient_eq_diffSchemeSpec _ (by rw [diffSchemeSpec_length]; omega)]

/-- Witness for C2 at a length-2 input (zero rule) and a length-3 input
(double differencing). -/
theorem c2_acceleration_witness :
    calcAcceleration [1, 1] = List.replicate 2 0 ∧
    calcAcceleration [0, 1, 4] = diffSchemeSpec (diffSchemeSpec [0, 1, 4]) :=
  ⟨(c2_acceleration [1, 1]).2.1 (by decide),
   (c2_acceleration [0, 1, 4]).2.2 (by decide)⟩

/-! Properties of the classifier confidence and of the rounding. -/

lemma varQ_nonneg (l : List ℚ) : 0 ≤ varQ l := by
  unfold varQ
  apply div_nonneg
  · apply List.sum_nonneg
    intro x hx
    simp only [List.mem_map] at hx
    obtain ⟨y, _, rfl⟩ := hx
    positivity
  · exact_mod_cast Nat.zero_le _

lemma npStd_nonneg (l : List ℚ) : 0 ≤ npStd l := Real.sqrt_nonneg _

lemma npStd_eq_zero_iff (l : List ℚ) : npStd l = 0 ↔ varQ l = 0 := by
  unfold npStd
  rw [Real.sqrt_eq_zero']
  constructor
  · intro h
    have h2 : (0 : ℝ) ≤ (varQ l : ℝ) := by exact_mod_cast varQ_nonneg l
    exact_mod_cast le_antisymm h h2
  · intro h
    rw [h]
    norm_num

lemma rawConfidence_nonneg (a : List ℚ) : 0 ≤ rawConfidence a := by
  simp only [rawConfidence]
  have hs : 0 ≤ npStd (recentAccel a) := npStd_nonneg _
  have ht : (0 : ℝ) ≤
      |((meanQ (recentAccel a) : ℚ) : ℝ)| / (npStd (recentAccel a) + 1 / 1000000) / 2 :=
    div_nonneg (div_nonneg (abs_nonneg _) (by linarith)) (by norm_num)
  split_ifs
  · exact le_min (by norm_num) (by norm_num)
  · exact le_min (by norm_num) (mul_nonneg (le_min (by norm_num) ht) (by norm_num))
  · norm_num
  · exact le_min (by norm_num) ht

lemma rawConfidence_le_one (a : List ℚ) : rawConfidence a ≤ 1 := by
  simp only [rawConfidence]
  split_ifs
  · exact min_le_left _ _
  · exact min_le_left _ _
  · exact le_refl 1
  · exact min_le_left _ _

lemma roundHalfEven_nonneg (x : ℝ) (hx : 0 ≤ x) : 0 ≤ roundHalfEven x := by
  have h0 : 0 ≤ ⌊x⌋ := Int.floor_nonneg.mpr hx
  rw [roundHalfEven]
  split_ifs <;> omega

lemma roundHalfEven_le (x : ℝ) (n : ℤ) (hx : x ≤ n) : roundHalfEven x ≤ n := by
  have hf : ⌊x⌋ ≤ n := by
    have := Int.floor_le_floor hx
    rwa [Int.floor_intCast] at this
  have hkey : (1 / 2 : ℝ) ≤ x - ⌊x⌋ → ⌊x⌋ < n := by
    intro h
    by_contra hc
    have he : ⌊x⌋ = n := le_antisymm hf (not_lt.mp hc)
    have hnx : ((n : ℤ) : ℝ) + 1 / 2 ≤ x := by
      rw [← he]
      linarith
    linarith
  rw [roundHalfEven]
  split_ifs with h1 h2 h3
  · exact hf
  · have := hkey (by linarith [not_lt.mp h1])
    omega
  · exact hf
  · have := hkey (by linarith [not_lt.mp h1])
    omega

lemma roundHalfEven_intCast (n : ℤ) : roundHalfEven ((n : ℝ)) = n := by
  rw [roundHalfEven, Int.floor_intCast, if_pos (by norm_num : ((n : ℝ) - n < 1 / 2))]

lemma round3R_nonneg (x : ℝ) (hx : 0 ≤ x) : 0 ≤ round3R x := by
  rw [round3R]
  apply div_nonneg _ (by norm_num)
  exact_mod_cast roundHalfEven_nonneg _ (by positivity)

lemma round3R_le_one (x : ℝ) (hx : x ≤ 1) : round3R x ≤ 1 := by
  rw [round3R, div_le_one (by norm_num)]
  have h : roundHalfEven (x * 1000) ≤ (1000 : ℤ) := by
    apply roundHalfEven_le
    push_cast
    linarith
  exact_mod_cast h

lemma round3R_eq_self (x : ℝ) (k : ℤ) (hk : x * 1000 = (k : ℝ)) : round3R x = x := by
  rw [round3R, hk, roundHalfEven_intCast]
  linarith

lemma classifyConfidence_nonneg (a : List ℚ) : 0 ≤ classifyConfidence a := by
  rw [classifyConfidence]
  split_ifs
  · norm_num
  · exact round3R_nonneg _ (rawConfidence_nonneg a)

lemma classifyConfidence_le_one (a : List ℚ) : classifyConfidence a ≤ 1 := by
  rw [classifyConfidence]
  split_ifs
  · norm_num
  · exact round3R_le_one _ (rawConfidence_le_one a)

lemma classifyConfidence_eq_round (a : List ℚ) :
    classifyConfidence a = round3R (unroundedConfidence a) := by
  rw [classifyConfidence, unroundedConfidence]
  split_ifs with h
  · exact (round3R_eq_self _ 500 (by norm_num)).symm
  · rfl

lemma rawConfidence_of_var_zero (a : List ℚ) (hv : varQ (recentAccel a) = 0) :
    rawConfidence a = 1 := by
  have hs : npStd (recentAccel a) = 0 := (npStd_eq_zero_iff _).mpr hv
  simp only [rawConfidence, if_pos hs]
  split_ifs
  · rw [min_eq_left (by norm_num)]
  · rfl

lemma classifyConfidence_of_var_zero (a : List ℚ) (h3 : ¬ a.length < 3)
    (hv : varQ (recentAccel a) = 0) : classifyConfidence a = 1 := by
  rw [classifyConfidence, if_neg h3, rawConfidence_of_var_zero a hv]
  exact round3R_eq_self 1 1000 (by norm_num)

/-! Claim theorems about the trend classifier, the pipeline, and the
transport boundary. -/

/-- C4: for every acceleration sequence, the confidence returned by the
classifier lies in `[0, 1]` (also after the 1.2x boost, which is clamped),
and it equals the pre-rounding confidence value rounded to 3 decimal
places. -/
theorem c4_confidence_bounds (a : List ℚ) :
    0 ≤ classifyConfidence a ∧ classifyConfidence a ≤ 1 ∧
    classifyConfidence a = round3R (unroundedConfidence a) :=
  ⟨classifyConfidence_nonneg a, classifyConfidence_le_one a, classifyConfidence_eq_round a⟩

/-- C3: for 7 consecutive daily timestamps, the constant series
`[1, 1, 1, 1, 1, 1, 1]` and `alpha = 0.3`, the computation returns the
constant smoothed series 1.0, the all-zero acceleration series, trend
"stable" and confidence exactly 1.0; moreover the acceleration history does
not fall in the short-series branch (its length is not below 3) and its
trailing window has zero variance, i.e. the `std_accel == 0` branch of the
classifier produced the confidence. -/
theorem c3_constant_series :
    calculate_acceleration c3ts c3vs (3 / 10) =
      .ok ⟨1, 0, "stable", 1, List.replicate 7 1, List.replicate 7 0⟩ ∧
    ¬ (List.replicate 7 (0 : ℚ)).length < 3 ∧
    varQ (recentAccel (List.replicate 7 (0 : ℚ))) = 0 := by
  refine ⟨?_, by decide, by with_unfolding_all decide⟩
  have hv : applyExponentialSmoothing (normalizedValues c3ts c3vs) (3 / 10) =
      List.replicate 7 1 := by
    with_unfolding_all decide
  have ha : calcAcceleration (List.replicate 7 (1 : ℚ)) = List.replicate 7 0 := by
    with_unfolding_all decide
  rw [calculate_acceleration.eq_def, if_neg (by decide), if_neg (by decide), hv, ha]
  have hc : classifyConfidence (List.replicate 7 (0 : ℚ)) = 1 :=
    classifyConfidence_of_var_zero _ (by decide) (by with_unfolding_all decide)
  have hl : classifyTrendLabel (List.replicate 7 (0 : ℚ)) = "stable" := by
    with_unfolding_all decide
  rw [hc, hl]
  rfl

/-- C5 counterexample: with 5 timestamps and 9 values (unequal lengths and
fewer timestamps than the minimum), the computation raises the
insufficient-data error, not the length-mismatch error the claim asserts. -/
theorem c5_counterexample :
    calculate_acceleration [0, 1, 2, 3, 4] (List.replicate 9 (PyFloat.finite 1)) (3 / 10) =
      .error (.insufficientData 7 5) ∧
    DetectorError.insufficientData 7 5 ≠ DetectorError.lengthMismatch := by
  constructor
  · rw [calculate_acceleration.eq_def, if_pos (by decide)]
    rfl
  · decide

/-- C5 (amended): for unequal lengths the computation always fails with a
`ValueError`, but the minimum-data-points check runs first: the
length-mismatch error is raised exactly when the timestamps sequence has at
least the configured minimum of entries; otherwise the insufficient-data
error is raised. -/
theorem c5_length_mismatch (ts : List ℤ) (vs : List PyFloat) (alpha : ℚ)
    (h : ts.length ≠ vs.length) :
    (minDataPoints ≤ ts.length →
      calculate_acceleration ts vs alpha = .error .lengthMismatch) ∧
    (ts.length < minDataPoints →
      calculate_acceleration ts vs alpha = .error (.insufficientData minDataPoints ts.length)) := by
  constructor
  · intro hmin
    rw [calculate_acceleration.eq_def, if_neg (by omega), if_pos h]
  · intro hlt
    rw [calculate_acceleration.eq_def, if_pos hlt]

/-- Witness for C5 at the claim's own example: 10 timestamps, 9 values. -/
theorem c5_length_mismatch_witness :
    calculate_acceleration [0, 1, 2, 3, 4, 5, 6, 7, 8, 9]
        (List.replicate 9 (PyFloat.finite 1)) (3 / 10) =
      .error DetectorError.lengthMismatch :=
  (c5_length_mismatch _ _ _ (by decide)).1 (by decide)

/-- C6 counterexample: an input containing a positive infinity keeps that
value through normalization (`dropna` removes only `NaN`), so a non-finite
value does reach the smoothing stage, contradicting the claim. -/
theorem c6_counterexample :
    ¬ ∀ p ∈ normalizePairs c6ts c6vs, p.2.isFinite = true := by
  intro h
  have h2 := h (3, PyFloat.inf) (by decide)
  simp [PyFloat.isFinite] at h2

/-- C6 (amended): every entry whose value is missing (`NaN`) is removed
together with its paired timestamp before the smoothing stage — the
surviving pairs are a sublist of the sorted pairing, so removal never
desynchronizes the pairing — but infinities are not removed. -/
theorem c6_nan_removal (ts : List ℤ) (vs : List PyFloat) :
    (∀ p ∈ normalizePairs ts vs, p.2.isNaN = false) ∧
    (normalizePairs ts vs).Sublist (sortByTimestamp (ts.zip vs)) := by
  constructor
  · intro p hp
    simp only [normalizePairs, dropNaN] at hp
    have h2 := List.of_mem_filter hp
    simpa using h2
  · simp only [normalizePairs, dropNaN]
    exact List.filter_sublist _

/-- Witness for C6 (amended) at a one-point input. -/
theorem c6_nan_removal_witness :
    ((0 : ℤ), PyFloat.finite 2).2.isNaN = false :=
  (c6_nan_removal [0] [PyFloat.finite 2]).1 (0, PyFloat.finite 2) (by decide)

set_option maxRecDepth 10000 in
/-- C8: for the strictly increasing series `1, ..., 20` at daily timestamps
with `alpha = 0.3` the returned trend is "stable" or "improving" (it is in
fact "stable") and the confidence lies in `[0, 1]`; for the strictly
decreasing series `20, ..., 1` the trend is never "improving". -/
theorem c8_monotone_smoke :
    (∃ r, calculate_acceleration upTs upVs (3 / 10) = .ok r ∧
      (r.trend = "stable" ∨ r.trend = "improving") ∧
      0 ≤ r.confidence ∧ r.confidence ≤ 1) ∧
    (∃ r, calculate_acceleration upTs dnVs (3 / 10) = .ok r ∧ r.trend ≠ "improving") := by
  constructor
  · refine ⟨_, rfl, ?_, ?_, ?_⟩
    · exact Or.inl (by with_unfolding_all decide)
    · show 0 ≤ classifyConfidence
          (calcAcceleration (applyExponentialSmoothing (normalizedValues upTs upVs) (3 / 10)))
      exact classifyConfidence_nonneg _
    · show classifyConfidence
          (calcAcceleration (applyExponentialSmoothing (normalizedValues upTs upVs) (3 / 10))) ≤ 1
      exact classifyConfidence_le_one _
  · refine ⟨_, rfl, ?_⟩
    have h : classifyTrendLabel
        (calcAcceleration (applyExponentialSmoothing (normalizedValues upTs dnVs) (3 / 10))) =
        "stable" := by
      with_unfolding_all decide
    simp [h]

/-- C9 counterexample: a caller-supplied smoothing factor of 0.0 is NOT
passed to the engine (Python `or` treats 0.0 as falsy and substitutes the
default 0.3), contradicting the claim. -/
theorem c9_counterexample : ¬ (engineAlpha (AlphaField.value 0) = 0) := by
  with_unfolding_all decide

/-- C9 (amended): the engine receives exactly the caller-supplied smoothing
factor whenever that factor is nonzero; an absent field, a `null` field and
the supplied value 0.0 all make the engine receive the default 0.3. -/
theorem c9_alpha_default (q : ℚ) (hq : q ≠ 0) :
    engineAlpha (AlphaField.value q) = q ∧
    engineAlpha AlphaField.absent = 3 / 10 ∧
    engineAlpha AlphaField.null = 3 / 10 ∧
    engineAlpha (AlphaField.value 0) = 3 / 10 := by
  refine ⟨?_, ?_, rfl, ?_⟩
  · simp only [engineAlpha, parsedAlpha]
    rw [if_neg hq]
  · simp only [engineAlpha, parsedAlpha]
    rw [if_neg (by norm_num : ¬ (3 / 10 : ℚ) = 0)]
  · simp only [engineAlpha, parsedAlpha]
    simp

/-- Witness for C9 (amended) at the supplied factor 1/2. -/
theorem c9_alpha_default_witness :
    engineAlpha (AlphaField.value (1 / 2)) = 1 / 2 :=
  (c9_alpha_default (1 / 2) (by norm_num)).1

/-- C10: when validation passes (equal lengths, at least the minimum of
points) but every value is missing, the computation raises no error and
returns zero current velocity and acceleration, trend "stable", confidence
0.5 and empty histories. -/
theorem c10_all_nan (ts : List ℤ) (vs : List PyFloat) (alpha : ℚ)
    (hlen : ts.length = vs.length) (hmin : minDataPoints ≤ ts.length)
    (hnan : ∀ v ∈ vs, v = PyFloat.nan) :
    calculate_acceleration ts vs alpha = .ok ⟨0, 0, "stable", 1 / 2, [], []⟩ := by
  have hpairs : normalizePairs ts vs = [] := by
    rw [normalizePairs, dropNaN]
    apply List.filter_eq_nil_iff.mpr
    intro p hp
    rcases p with ⟨t, v⟩
    have hv : v ∈ vs := (List.of_mem_zip ((List.mem_insertionSort _).mp hp)).2
    rw [hnan v hv]
    simp [PyFloat.isNaN]
  have hvals : normalizedValues ts vs = [] := by
    rw [normalizedValues, hpairs]
    rfl
  rw [calculate_acceleration.eq_def, if_neg (by omega), if_neg (by omega), hvals]
  have h1 : applyExponentialSmoothing [] alpha = [] := rfl
  rw [h1]
  have h2 : calcAcceleration [] = [] := by
    rw [calcAcceleration.eq_def]
    simp
  rw [h2]
  have h3 : classifyConfidence [] = 1 / 2 := by
    rw [classifyConfidence, if_pos (by decide)]
  rw [h3]
  rfl

/-- Witness for C10 at 7 daily timestamps with all values missing. -/
theorem c10_all_nan_witness :
    calculate_acceleration c10ts c10vs (3 / 10) = .ok ⟨0, 0, "stable", 1 / 2, [], []⟩ :=
  c10_all_nan c10ts c10vs (3 / 10) (by decide) (by decide) (by decide)
